import Mathlib

/-!
Verification of the audio-mixing servers of this repository.

The repository holds four near-duplicate Express servers built around
fluent-ffmpeg.  The parts relevant to the claims are embedded below:

* variant A: the first server in src/unnamed/part_000 (processAudio at
  lines 78-146), whose per-clip filter chain is
  volume, atrim=duration, asetpts, adelay, followed by
  amix duration=first and a trailing atrim=duration=mainDuration;
* variant B: the second server in src/unnamed/part_000, identical
  processAudio, plus a download route (lines 328-370) that compares the
  rendered artifact duration with the main-track duration and trims on
  demand via trimAudio (lines 373-383);
* the beckand server (src/beckand/index.js) and variant C (third server
  in src/unnamed/part_000), whose per-clip chain is
  atrim=start:end, asetpts, volume, afade, adelay;
* the randomized server (src/unnamed/part_001), which draws the delay
  from Math.random and uses a fixed 4s span and 0.4 gain.

Durations, offsets and gains are modelled as rationals.  JavaScript
falsiness of an absent-or-zero numeric field is modelled by jsOr on
Option values.
-/

namespace AudioMix

/-- JavaScript expression `v || d` for a possibly-absent numeric field:
an absent field and a zero field both fall back to the default. -/
def jsOr (v : Option ℚ) (d : ℚ) : ℚ :=
  match v with
  | none => d
  | some x => if x = 0 then d else x

/-- Raw per-clip metadata entry as sent by the client: each of
timestamp, duration, volume may be absent. -/
structure RawMeta where
  timestamp : Option ℚ
  duration : Option ℚ
  volume : Option ℚ
  deriving DecidableEq, Repr

/-- Missing list entry, JS `backgroundAudioMetadata[index] || \x7b\x7d`. -/
def emptyMeta : RawMeta := ⟨none, none, none⟩

/-- Resolved gain, `Math.min(metadata.volume || 1, 1)`
(src/unnamed/part_000 line 110, src/beckand/index.js line 110). -/
def resolveVolume (v : Option ℚ) : ℚ :=
  min (jsOr v 1) 1

/-- Canonical placement produced by the variant A resolver. -/
structure ClipPlacement where
  startOffset : ℚ
  span : ℚ
  gain : ℚ
  delayMs : ℚ
  deriving DecidableEq, Repr

/-- Variant A resolver (src/unnamed/part_000 lines 106-111):
`delay = (metadata.timestamp || 0) * 1000`,
`volume = Math.min(metadata.volume || 1, 1)`,
`duration = Math.min(metadata.duration || mainDuration,
                     mainDuration - (metadata.timestamp || 0))`. -/
def resolveClipA (mainDuration : ℚ) (meta : RawMeta) : ClipPlacement :=
  let t := jsOr meta.timestamp 0
  { startOffset := t
    span := min (jsOr meta.duration mainDuration) (mainDuration - t)
    gain := resolveVolume meta.volume
    delayMs := t * 1000 }

/-- Resolved trim window of the beckand resolver. -/
structure BgWindow where
  start : ℚ
  stop : ℚ
  vol : ℚ
  deriving DecidableEq, Repr

/-- Beckand resolver (src/beckand/index.js lines 109-113):
`startTime = parseFloat(bgMetadata.timestamp) || 0`,
`specifiedDuration = parseFloat(bgMetadata.duration) || (mainDuration - startTime)`,
`endTime = Math.min(startTime + specifiedDuration, mainDuration)`. -/
def resolveClipBeckand (mainDuration : ℚ) (meta : RawMeta) : BgWindow :=
  let s := jsOr meta.timestamp 0
  let specD := jsOr meta.duration (mainDuration - s)
  { start := s
    stop := min (s + specD) mainDuration
    vol := resolveVolume meta.volume }

/-- Decision of the download-time duration reconciliation. -/
inductive TrimDecision where
  | unchanged : TrimDecision
  | trimTo (start dur : ℚ) : TrimDecision
  deriving DecidableEq, Repr

/-- Download route comparison (src/unnamed/part_000 lines 343-350):
`if (originalMetadata.duration <= mainMetadata.duration)` send as is,
otherwise trim via trimAudio, which runs
`setStartTime(0).setDuration(duration)` (lines 373-383). -/
def reconcileOnRetrieval (artifactDuration referenceDuration : ℚ) : TrimDecision :=
  if artifactDuration ≤ referenceDuration then
    TrimDecision.unchanged
  else
    TrimDecision.trimTo 0 referenceDuration

/-- One stage of a per-clip ffmpeg filter chain. -/
inductive Stage where
  | trim (s e : ℚ)
  | trimDur (d : ℚ)
  | setpts
  | gain (v : ℚ)
  | fade (st d : ℚ)
  | delay (l r : ℚ)
  deriving DecidableEq, Repr

/-- Kind of a stage, for stating order properties. -/
inductive StageKind where
  | trimK
  | setptsK
  | gainK
  | fadeK
  | delayK
  deriving DecidableEq, Repr

/-- Kind of each stage; both atrim forms count as trims. -/
def Stage.kind : Stage → StageKind
  | Stage.trim _ _ => StageKind.trimK
  | Stage.trimDur _ => StageKind.trimK
  | Stage.setpts => StageKind.setptsK
  | Stage.gain _ => StageKind.gainK
  | Stage.fade _ _ => StageKind.fadeK
  | Stage.delay _ _ => StageKind.delayK

/-- Kinds of the chain stages with the PTS reset dropped, leaving only the
trim, gain, fade and delay stages the spec talks about. -/
def coreKinds (c : List Stage) : List StageKind :=
  (c.map Stage.kind).filter (fun k => decide (k ≠ StageKind.setptsK))

/-- Variant A per-clip filter chain (src/unnamed/part_000 line 117):
volume, atrim=duration, asetpts=PTS-STARTPTS, adelay, in this order in a
single filter line, with adelay given the same delay for both channels. -/
def variantAChain (mainDuration : ℚ) (meta : RawMeta) : List Stage :=
  let p := resolveClipA mainDuration meta
  [Stage.gain p.gain, Stage.trimDur p.span, Stage.setpts,
   Stage.delay p.delayMs p.delayMs]

/-- Beckand per-clip filter chain (src/beckand/index.js lines 119-120):
atrim=start:end, asetpts, volume, afade=t=out:st=end-start-0.5:d=0.5 in
one filter line, then adelay=start*1000|start*1000 in a second line. -/
def beckandChain (mainDuration : ℚ) (meta : RawMeta) : List Stage :=
  let w := resolveClipBeckand mainDuration meta
  [Stage.trim w.start w.stop, Stage.setpts, Stage.gain w.vol,
   Stage.fade (w.stop - w.start - 1 / 2) (1 / 2),
   Stage.delay (w.start * 1000) (w.start * 1000)]

/-- Duration policy of the amix filter as emitted by the compilers. -/
inductive MixDur where
  | first
  | longest
  deriving DecidableEq, Repr

/-- Compiled mixing plan: one chain per background input (tagged with its
input index), the amix input order, the amix duration policy, and the
optional trailing atrim duration. -/
structure MixPlan where
  chains : List (Nat × List Stage)
  mixInputs : List Nat
  mixPolicy : MixDur
  trailingTrim : Option ℚ
  deriving DecidableEq, Repr

/-- Variant A compiler (src/unnamed/part_000 lines 106-129): one chain per
background file at input index i+1, a missing metadata entry defaulting to
the empty record; amix inputs are stream 0 followed by the delayed labels
in ascending input order; amix uses duration=first and a trailing
atrim=duration=mainDuration is appended. -/
def compileA (mainDuration : ℚ) (metas : List RawMeta) (n : Nat) : MixPlan :=
  { chains := (List.range n).map
      (fun i => (i + 1, variantAChain mainDuration (metas.getD i emptyMeta)))
    mixInputs := 0 :: (List.range n).map (· + 1)
    mixPolicy := MixDur.first
    trailingTrim := some mainDuration }

/-- Randomized-variant per-clip chain (src/unnamed/part_001 lines 118 and
126): volume=0.4, atrim=duration=4, asetpts, adelay, where the delay is
Math.floor(rand * (mainDuration - 4)) * 1000 for rand the Math.random
draw. -/
def randChain (mainDuration : ℚ) (rand : ℚ) : List Stage :=
  let delayMs : ℚ := ((⌊rand * (mainDuration - 4)⌋ : ℤ) : ℚ) * 1000
  [Stage.gain (2 / 5), Stage.trimDur 4, Stage.setpts,
   Stage.delay delayMs delayMs]

/-- Randomized-variant compiler (src/unnamed/part_001 lines 116-131), with
the successive Math.random draws passed explicitly as the list rands; amix
uses duration=longest and no trailing trim is appended. -/
def compileRand (mainDuration : ℚ) (n : Nat) (rands : List ℚ) : MixPlan :=
  { chains := (List.range n).map
      (fun i => (i + 1, randChain mainDuration (rands.getD i 0)))
    mixInputs := 0 :: (List.range n).map (· + 1)
    mixPolicy := MixDur.longest
    trailingTrim := none }

/-- Category of the raw backgroundAudioMetadata payload with respect to
JSON parsing: the empty string is falsy in JS and skips the parse;
malformed text makes JSON.parse throw; scalar is valid JSON that is not a
list (kept by the code, but indexing it later yields no entry, so every
clip resolves to the empty record); listDoc is a parsed list. -/
inductive JsonDoc where
  | emptyStr
  | malformed
  | scalar
  | listDoc (l : List RawMeta)
  deriving DecidableEq, Repr

/-- Response of the process route up to the metadata-validation step. -/
inductive ProcessResponse where
  | errFiles
  | errMetadata
  | render (metas : List RawMeta)
  deriving DecidableEq, Repr

/-- Process route (src/unnamed/part_000 lines 39-66): reject with 400 when
the main or background uploads are missing; otherwise, when the metadata
field is present and truthy, JSON.parse it and reject with 400 on a parse
exception; any successfully parsed value is kept and processing starts. -/
def processRoute (hasMain hasBg : Bool) (payload : Option JsonDoc) :
    ProcessResponse :=
  if hasMain && hasBg then
    match payload with
    | none => ProcessResponse.render []
    | some JsonDoc.emptyStr => ProcessResponse.render []
    | some JsonDoc.malformed => ProcessResponse.errMetadata
    | some JsonDoc.scalar => ProcessResponse.render []
    | some (JsonDoc.listDoc l) => ProcessResponse.render l
  else ProcessResponse.errFiles

/-- Outcome of the download route of the second server in
src/unnamed/part_000. -/
inductive DownloadOutcome where
  | notFound
  | handOffError
  | sendOriginal
  | sendTrimmed (dur : ℚ)
  deriving DecidableEq, Repr

/-- Download route checks (src/unnamed/part_000 lines 328-350): one
combined existsSync check returns a single 404 response when either the
artifact or the reference track is missing; otherwise the artifact is
sent as is when its duration does not exceed the reference duration, and
trimmed to the reference duration otherwise. -/
def downloadRoute (artifactExists refExists : Bool) (aDur rDur : ℚ) :
    DownloadOutcome :=
  if !artifactExists || !refExists then DownloadOutcome.notFound
  else if aDur ≤ rDur then DownloadOutcome.sendOriginal
  else DownloadOutcome.sendTrimmed rDur

/-- Storage path: directory name and file name. -/
abbrev FPath := String × String

/-- File store mapping paths to the duration of the audio file stored
there, as an association list; earlier entries shadow later ones. -/
def Store := List (FPath × ℚ)

/-- Duration of the file at a path, none when no file is there. -/
def getFile : Store → FPath → Option ℚ
  | [], _ => none
  | (q, d) :: t, p => if q = p then some d else getFile t p

/-- fs.unlink: remove the file at a path. -/
def removeFile (s : Store) (p : FPath) : Store :=
  s.filter (fun e => decide (e.1 ≠ p))

/-- Write a file at a path, shadowing any previous file there. -/
def setFile (s : Store) (p : FPath) (d : ℚ) : Store :=
  (p, d) :: s

/-- trimAudio (src/unnamed/part_000 lines 373-383): reads the input file
and writes to outputPath a copy starting at time 0 and limited to the
given duration, so the written file has the smaller of the requested
duration and the input duration; the input file is not modified. -/
def trimAudioStore (s : Store) (inPath outPath : FPath) (dur : ℚ) : Store :=
  match getFile s inPath with
  | none => s
  | some a => setFile s outPath (min dur a)

/-- Directory holding rendered artifacts. -/
def publicDir : String := "public"

/-- Directory holding uploaded reference tracks. -/
def uploadsDir : String := "uploads"

/-- Directory holding per-request trimmed copies. -/
def outputDir : String := "output"

/-- Download route with trimming (src/unnamed/part_000 lines 328-370): on
a trim decision the trimmed copy is written to the output directory under
the same file name, handed to the caller via res.download, and unlinked
in the res.download callback on both the success and the failure path. -/
def downloadFlow (s : Store) (filename mainAudio : String)
    (handOffFails : Bool) : DownloadOutcome × Store :=
  let orig : FPath := (publicDir, filename)
  let ref : FPath := (uploadsDir, mainAudio)
  match getFile s orig, getFile s ref with
  | some aDur, some rDur =>
      if aDur ≤ rDur then (DownloadOutcome.sendOriginal, s)
      else
        let trimmed : FPath := (outputDir, filename)
        let s2 := trimAudioStore s orig trimmed rDur
        ((if handOffFails then DownloadOutcome.handOffError
          else DownloadOutcome.sendTrimmed rDur),
          removeFile s2 trimmed)
  | _, _ => (DownloadOutcome.notFound, s)

/-- Duration of the amix output stream: duration=first keeps the duration
of the first input (the main track), duration=longest keeps the longest
participating stream.  Models the ffmpeg amix duration option applied to
the emitted plan, with clipEnds the end times of the delayed clips. -/
def mixedDuration (mainDuration : ℚ) (clipEnds : List ℚ) : MixDur → ℚ
  | MixDur.first => mainDuration
  | MixDur.longest => clipEnds.foldr max mainDuration

/-- Output duration of a compiled plan: the amix duration, truncated by
the trailing atrim when one is present. -/
def planOutputDuration (mainDuration : ℚ) (clipEnds : List ℚ)
    (p : MixPlan) : ℚ :=
  match p.trailingTrim with
  | none => mixedDuration mainDuration clipEnds p.mixPolicy
  | some t => min (mixedDuration mainDuration clipEnds p.mixPolicy) t

end AudioMix

namespace AudioMix

/-- C1 counterexample: the code compares durations exactly, with no 10ms
tolerance, so reconcileOnRetrieval(10.005, 10.0) trims instead of
returning Unchanged. -/
theorem reconcile_no_tolerance_cex :
    reconcileOnRetrieval (2001 / 200) 10 = TrimDecision.trimTo 0 10 ∧
      reconcileOnRetrieval (2001 / 200) 10 ≠ TrimDecision.unchanged := by
  constructor
  · unfold reconcileOnRetrieval
    norm_num
  · unfold reconcileOnRetrieval
    norm_num
    intro h
    exact TrimDecision.noConfusion h

/-- C1 amended: for all durations, the decision is Unchanged exactly when
artifactDuration ≤ referenceDuration (no tolerance), and otherwise
TrimTo(referenceDuration) starting at offset 0. -/
theorem reconcile_exact_compare (a r : ℚ) :
    (a ≤ r → reconcileOnRetrieval a r = TrimDecision.unchanged) ∧
      (r < a → reconcileOnRetrieval a r = TrimDecision.trimTo 0 r) := by
  constructor
  · intro h
    unfold reconcileOnRetrieval
    simp [h]
  · intro h
    unfold reconcileOnRetrieval
    simp [not_le.mpr h]

/-- C1 witness: the amended reconciliation evaluated at the concrete pairs
(10, 12) and (12, 10) from the spec examples. -/
theorem reconcile_exact_compare_witness :
    reconcileOnRetrieval 10 12 = TrimDecision.unchanged ∧
      reconcileOnRetrieval 12 10 = TrimDecision.trimTo 0 10 :=
  ⟨(reconcile_exact_compare 10 12).1 (by norm_num),
   (reconcile_exact_compare 12 10).2 (by norm_num)⟩

/-- Helper: jsOr with default 0 stays within [0, m) when the raw field is
absent or within [0, m). -/
theorem jsOr_nonneg_lt (v : Option ℚ) (m : ℚ) (hm : 0 < m)
    (hv : ∀ x ∈ v, 0 ≤ x ∧ x < m) : 0 ≤ jsOr v 0 ∧ jsOr v 0 < m := by
  rcases v with _ | x
  · exact ⟨le_refl 0, by simpa [jsOr] using hm⟩
  · obtain ⟨h1, h2⟩ := hv x rfl
    unfold jsOr
    by_cases hx : x = 0
    · simp only [hx, if_true]
      exact ⟨le_refl 0, hm⟩
    · simp only [hx, if_false]
      exact ⟨h1, h2⟩

/-- Helper: jsOr with a positive default is positive when the raw field is
absent or non-negative. -/
theorem jsOr_pos (v : Option ℚ) (d : ℚ) (hdpos : 0 < d)
    (hv : ∀ x ∈ v, 0 ≤ x) : 0 < jsOr v d := by
  rcases v with _ | x
  · simpa [jsOr] using hdpos
  · have h1 := hv x rfl
    unfold jsOr
    by_cases hx : x = 0
    · simp only [hx, if_true]
      exact hdpos
    · simp only [hx, if_false]
      exact lt_of_le_of_ne h1 (Ne.symm hx)

/-- C2 counterexample: a raw startOffset equal to mainDuration produces a
zero span, not a minimum-epsilon span: with mainDuration 10 and metadata
timestamp 10, the variant A resolver yields span = min(10, 10 - 10) = 0. -/
theorem resolver_clamp_cex :
    (resolveClipA 10 ⟨some 10, none, none⟩).span = 0 ∧
      ¬ (0 < (resolveClipA 10 ⟨some 10, none, none⟩).span) := by
  have h : (resolveClipA 10 ⟨some 10, none, none⟩).span = 0 := by
    simp [resolveClipA, jsOr]
  exact ⟨h, by rw [h]; norm_num⟩

/-- C2 amended: for well-formed raw entries (positive main duration,
timestamp absent or in [0, mainDuration), duration absent or
non-negative), both resolvers produce placements with
0 ≤ startOffset, 0 < span and startOffset + span ≤ mainDuration;
adversarial entries with startOffset ≥ mainDuration instead yield a
zero or negative span, since the code performs no clamping. -/
theorem resolver_invariant_wellformed (mD : ℚ) (meta : RawMeta)
    (hmd : 0 < mD)
    (ht : ∀ x ∈ meta.timestamp, 0 ≤ x ∧ x < mD)
    (hd : ∀ x ∈ meta.duration, 0 ≤ x) :
    (0 ≤ (resolveClipA mD meta).startOffset ∧
      0 < (resolveClipA mD meta).span ∧
      (resolveClipA mD meta).startOffset + (resolveClipA mD meta).span ≤ mD) ∧
    (0 ≤ (resolveClipBeckand mD meta).start ∧
      (resolveClipBeckand mD meta).start < (resolveClipBeckand mD meta).stop ∧
      (resolveClipBeckand mD meta).stop ≤ mD) := by
  obtain ⟨hts0, htsm⟩ := jsOr_nonneg_lt meta.timestamp mD hmd ht
  have hda : 0 < jsOr meta.duration mD := jsOr_pos _ _ hmd hd
  have hdb : 0 < jsOr meta.duration (mD - jsOr meta.timestamp 0) :=
    jsOr_pos _ _ (by linarith) hd
  simp only [resolveClipA, resolveClipBeckand]
  refine ⟨⟨hts0, ?_, ?_⟩, hts0, ?_, min_le_right _ _⟩
  · exact lt_min hda (by linarith)
  · have hmin := min_le_right (jsOr meta.duration mD) (mD - jsOr meta.timestamp 0)
    linarith
  · exact lt_min (by linarith) htsm

/-- C2 witness: the amended invariant evaluated at mainDuration 10 and a
concrete well-formed entry with timestamp 2, duration 3, volume 1. -/
theorem resolver_invariant_wellformed_witness :
    (0 ≤ (resolveClipA 10 ⟨some 2, some 3, some 1⟩).startOffset ∧
      0 < (resolveClipA 10 ⟨some 2, some 3, some 1⟩).span ∧
      (resolveClipA 10 ⟨some 2, some 3, some 1⟩).startOffset +
        (resolveClipA 10 ⟨some 2, some 3, some 1⟩).span ≤ 10) ∧
    (0 ≤ (resolveClipBeckand 10 ⟨some 2, some 3, some 1⟩).start ∧
      (resolveClipBeckand 10 ⟨some 2, some 3, some 1⟩).start <
        (resolveClipBeckand 10 ⟨some 2, some 3, some 1⟩).stop ∧
      (resolveClipBeckand 10 ⟨some 2, some 3, some 1⟩).stop ≤ 10) :=
  resolver_invariant_wellformed 10 ⟨some 2, some 3, some 1⟩ (by norm_num)
    (by
      intro x hx
      simp only [Option.mem_def, Option.some.injEq] at hx
      subst hx
      norm_num)
    (by
      intro x hx
      simp only [Option.mem_def, Option.some.injEq] at hx
      subst hx
      norm_num)

/-- C6 counterexample: a negative raw volume is truthy in JS, so it passes
through Math.min unchanged and the resolved gain is negative, outside
(0, 1]. -/
theorem resolveVolume_negative_cex :
    resolveVolume (some (-1 / 2)) = -1 / 2 ∧
      ¬ (0 < resolveVolume (some (-1 / 2))) := by
  constructor
  · unfold resolveVolume jsOr
    norm_num
  · unfold resolveVolume jsOr
    norm_num

/-- C6 amended: for every raw volume that is absent or non-negative, the
resolved gain lies in (0, 1]; an absent volume defaults to 1 and any value
greater than 1 is clamped to 1. -/
theorem resolveVolume_range (v : Option ℚ) (h : ∀ x ∈ v, 0 ≤ x) :
    (0 < resolveVolume v ∧ resolveVolume v ≤ 1) ∧
      resolveVolume none = 1 ∧
      (∀ x ∈ v, 1 < x → resolveVolume v = 1) := by
  refine ⟨?_, by unfold resolveVolume jsOr; norm_num, ?_⟩
  · match v with
    | none =>
        unfold resolveVolume jsOr
        norm_num
    | some x =>
        have hx : 0 ≤ x := h x rfl
        unfold resolveVolume jsOr
        by_cases hx0 : x = 0
        · simp [hx0]
        · have hxpos : 0 < x := lt_of_le_of_ne hx (Ne.symm hx0)
          simp only [hx0, if_false]
          constructor
          · exact lt_min hxpos one_pos
          · exact min_le_right x 1
  · intro x hx hgt
    match v with
    | some y =>
        have hxy : y = x := Option.some_inj.mp (by simpa using hx)
        subst hxy
        have hy0 : y ≠ 0 := by positivity
        unfold resolveVolume jsOr
        simp only [hy0, if_false]
        exact min_eq_right (le_of_lt hgt)

/-- C6 witness: the amended gain bounds evaluated at raw volume 3/2, which
is clamped to 1. -/
theorem resolveVolume_range_witness :
    (0 < resolveVolume (some (3 / 2)) ∧ resolveVolume (some (3 / 2)) ≤ 1) ∧
      resolveVolume none = 1 ∧ resolveVolume (some (3 / 2)) = 1 :=
  ⟨(resolveVolume_range (some (3 / 2)) (by norm_num)).1,
   (resolveVolume_range (some (3 / 2)) (by norm_num)).2.1,
   (resolveVolume_range (some (3 / 2)) (by norm_num)).2.2 (3 / 2) rfl
     (by norm_num)⟩

/-- C10: a raw volume of exactly 0 is falsy in JS, so it defaults to 1
before the clamp, and no raw volume can resolve to gain 0: the absolute
value of every resolved gain is positive. -/
theorem resolveVolume_zero_is_full :
    resolveVolume (some 0) = 1 ∧ ∀ v : Option ℚ, 0 < |resolveVolume v| := by
  constructor
  · unfold resolveVolume jsOr
    norm_num
  · intro v
    rw [abs_pos]
    match v with
    | none =>
        unfold resolveVolume jsOr
        norm_num
    | some x =>
        unfold resolveVolume jsOr
        by_cases hx0 : x = 0
        · simp [hx0]
        · simp only [hx0, if_false]
          intro hmin
          rcases min_cases x 1 with ⟨heq, _⟩ | ⟨heq, _⟩
          · exact hx0 (heq ▸ hmin)
          · exact one_ne_zero (heq ▸ hmin)

/-- C3 counterexample: the variant A compiler emits Gain before Trim (the
filter line is volume,atrim,...), so its chain for mainDuration 10 and an
empty metadata entry does not apply Trim first. -/
theorem chain_order_cex :
    coreKinds (variantAChain 10 emptyMeta) =
      [StageKind.gainK, StageKind.trimK, StageKind.delayK] ∧
    coreKinds (variantAChain 10 emptyMeta) ≠
      [StageKind.trimK, StageKind.gainK, StageKind.delayK] := by
  constructor
  · simp [variantAChain, coreKinds, Stage.kind]
  · simp [variantAChain, coreKinds, Stage.kind]

/-- C3 amended: the beckand compiler emits, for every placement, the core
stages in order Trim, Gain, FadeOut, Delay, with the fade always emitted
with positive duration 1/2 positioned at span - 1/2 and the delay last
with startOffset*1000 on both channels; the variant A compiler in
src/unnamed/part_000 instead emits Gain before Trim and no fade. -/
theorem chain_order (mD : ℚ) (meta : RawMeta) :
    coreKinds (beckandChain mD meta) =
      [StageKind.trimK, StageKind.gainK, StageKind.fadeK, StageKind.delayK] ∧
    (beckandChain mD meta)[3]? =
      some (Stage.fade ((resolveClipBeckand mD meta).stop -
        (resolveClipBeckand mD meta).start - 1 / 2) (1 / 2)) ∧
    (0 : ℚ) < 1 / 2 ∧
    (beckandChain mD meta).getLast? =
      some (Stage.delay ((resolveClipBeckand mD meta).start * 1000)
        ((resolveClipBeckand mD meta).start * 1000)) ∧
    coreKinds (variantAChain mD meta) =
      [StageKind.gainK, StageKind.trimK, StageKind.delayK] := by
  refine ⟨?_, ?_, by norm_num, ?_, ?_⟩
  · simp [beckandChain, coreKinds, Stage.kind]
  · simp [beckandChain]
  · simp [beckandChain, List.getLast?]
  · simp [variantAChain, coreKinds, Stage.kind]

/-- C4: under the matchMain policy of the variant A compiler, the plan
uses amix duration=first, appends a trailing trim to mainDuration, and its
resolved output duration is exactly mainDuration for every main duration
and every placement list, including the empty one. -/
theorem matchMain_output_duration (mD : ℚ) (metas : List RawMeta) (n : Nat)
    (clipEnds : List ℚ) :
    planOutputDuration mD clipEnds (compileA mD metas n) = mD ∧
      (compileA mD metas n).mixPolicy = MixDur.first ∧
      (compileA mD metas n).trailingTrim = some mD := by
  refine ⟨?_, rfl, rfl⟩
  simp [planOutputDuration, compileA, mixedDuration]

/-- Helper: the amix input order emitted by both compilers is the main
stream followed by the background labels in ascending input index. -/
theorem mixInputs_eq_range (n : Nat) :
    0 :: (List.range n).map (· + 1) = List.range (n + 1) := by
  rw [List.range_succ_eq_map]

/-- Helper: the amix input list of the compilers is strictly ascending. -/
theorem mixInputs_ascending (n : Nat) :
    List.Chain' (· < ·) (0 :: (List.range n).map (· + 1)) := by
  rw [mixInputs_eq_range]
  exact (List.pairwise_lt_range _).chain'

/-- C5: the compilers are pure functions of their inputs, so identical
(mainDuration, placements) input yields identical plans, and the amix
inputs are always ordered by ascending source index; the randomized
variant, with its Math.random draws passed explicitly, yields identical
plans whenever the same draws (seed) are supplied. -/
theorem compiler_deterministic (mD : ℚ) (metas : List RawMeta) (n : Nat)
    (rands : List ℚ) :
    compileA mD metas n = compileA mD metas n ∧
      List.Chain' (· < ·) (compileA mD metas n).mixInputs ∧
      compileRand mD n rands = compileRand mD n rands ∧
      List.Chain' (· < ·) (compileRand mD n rands).mixInputs :=
  ⟨rfl, mixInputs_ascending n, rfl, mixInputs_ascending n⟩

/-- C7 counterexample: a payload that is valid JSON but not a structured
list (a scalar) passes JSON.parse, so the route does not reject it and
every clip silently resolves to defaults. -/
theorem metadata_scalar_cex :
    processRoute true true (some JsonDoc.scalar) = ProcessResponse.render [] ∧
      processRoute true true (some JsonDoc.scalar) ≠
        ProcessResponse.errMetadata := by
  constructor
  · rfl
  · intro h
    exact ProcessResponse.noConfusion h

/-- C7 amended: a present, non-empty payload on which JSON.parse throws is
rejected with the metadata format error when both uploads are present, and
under every other file configuration the request is rejected for missing
files, so a malformed payload never reaches processing; payloads that
parse as non-list JSON values are instead silently treated as an empty
metadata list. -/
theorem metadata_reject_malformed :
    processRoute true true (some JsonDoc.malformed) =
        ProcessResponse.errMetadata ∧
      processRoute true false (some JsonDoc.malformed) =
        ProcessResponse.errFiles ∧
      processRoute false true (some JsonDoc.malformed) =
        ProcessResponse.errFiles ∧
      processRoute false false (some JsonDoc.malformed) =
        ProcessResponse.errFiles :=
  ⟨rfl, rfl, rfl, rfl⟩

/-- C8 counterexample: with only the artifact missing and with only the
reference missing, the route produces the identical 404 outcome, so the
reported error does not identify which track is missing. -/
theorem download_errors_identical_cex :
    downloadRoute false true 1 1 = DownloadOutcome.notFound ∧
      downloadRoute true false 1 1 = DownloadOutcome.notFound ∧
      downloadRoute false true 1 1 = downloadRoute true false 1 1 := by
  refine ⟨rfl, rfl, rfl⟩

/-- C8 amended: for every pair of durations, a missing artifact and a
missing reference track both produce the same single File-not-found
response; the route never distinguishes the two cases. -/
theorem download_errors_identical (aDur rDur : ℚ) :
    downloadRoute false true aDur rDur = DownloadOutcome.notFound ∧
      downloadRoute true false aDur rDur = DownloadOutcome.notFound ∧
      downloadRoute false true aDur rDur = downloadRoute true false aDur rDur := by
  refine ⟨rfl, rfl, rfl⟩

/-- Helper: reading the path just written returns the written file. -/
theorem getFile_setFile_same (s : Store) (p : FPath) (d : ℚ) :
    getFile (setFile s p d) p = some d := by
  simp [setFile, getFile]

/-- Helper: writing one path leaves every other path unchanged. -/
theorem getFile_setFile_other (s : Store) (p q : FPath) (d : ℚ)
    (h : p ≠ q) : getFile (setFile s p d) q = getFile s q := by
  simp [setFile, getFile, h]

/-- Helper: a removed path holds no file. -/
theorem getFile_removeFile_same (s : Store) (p : FPath) :
    getFile (removeFile s p) p = none := by
  induction s with
  | nil => rfl
  | cons e t ih =>
      by_cases he : e.1 = p
      · simpa [removeFile, he] using ih
      · obtain ⟨q, d⟩ := e
        simp only [] at he
        simpa [removeFile, getFile, he] using ih

/-- Helper: removing one path leaves every other path unchanged. -/
theorem getFile_removeFile_other (s : Store) (p q : FPath) (h : p ≠ q) :
    getFile (removeFile s p) q = getFile s q := by
  induction s with
  | nil => rfl
  | cons e t ih =>
      obtain ⟨x, d⟩ := e
      by_cases hx : x = p
      · subst hx
        simpa [removeFile, getFile, h] using ih
      · by_cases hq : x = q
        · subst hq
          simp [removeFile, getFile, hx]
        · simpa [removeFile, getFile, hx, hq] using ih

/-- C9: when the download route decides to trim, the trimmed copy lives at
a path distinct from the canonical artifact, the canonical artifact is
left unchanged by the whole flow, the trimmed copy written before the
hand-off has the reference duration, and after the flow the trimmed copy
is deleted whether or not the hand-off failed. -/
theorem trim_artifact_lifecycle (s : Store) (fn ma : String)
    (handOffFails : Bool) (a r : ℚ)
    (ha : getFile s (publicDir, fn) = some a)
    (hr : getFile s (uploadsDir, ma) = some r)
    (hlt : r < a) :
    ((outputDir, fn) : FPath) ≠ (publicDir, fn) ∧
      getFile (trimAudioStore s (publicDir, fn) (outputDir, fn) r)
        (outputDir, fn) = some (min r a) ∧
      getFile (downloadFlow s fn ma handOffFails).2 (publicDir, fn) = some a ∧
      getFile (downloadFlow s fn ma handOffFails).2 (outputDir, fn) = none := by
  have hdir : outputDir ≠ publicDir := by decide
  have hpath : ((outputDir, fn) : FPath) ≠ (publicDir, fn) := by
    intro h
    exact hdir (congrArg Prod.fst h)
  have hflow : (downloadFlow s fn ma handOffFails).2 =
      removeFile (trimAudioStore s (publicDir, fn) (outputDir, fn) r)
        (outputDir, fn) := by
    simp [downloadFlow, ha, hr, not_le.mpr hlt]
  have htrim : trimAudioStore s (publicDir, fn) (outputDir, fn) r =
      setFile s (outputDir, fn) (min r a) := by
    simp [trimAudioStore, ha]
  refine ⟨hpath, ?_, ?_, ?_⟩
  · rw [htrim]
    exact getFile_setFile_same s (outputDir, fn) (min r a)
  · rw [hflow, htrim,
      getFile_removeFile_other _ _ _ hpath,
      getFile_setFile_other _ _ _ _ hpath]
    exact ha
  · rw [hflow]
    exact getFile_removeFile_same _ _

/-- C9 witness: the lifecycle evaluated on a concrete store holding a
12-second artifact and a 10-second reference, with a failing hand-off. -/
theorem trim_artifact_lifecycle_witness :
    ((outputDir, "x.aac") : FPath) ≠ (publicDir, "x.aac") ∧
      getFile (trimAudioStore [((publicDir, "x.aac"), 12),
          ((uploadsDir, "m.mp3"), 10)] (publicDir, "x.aac")
          (outputDir, "x.aac") 10) (outputDir, "x.aac") = some (min 10 12) ∧
      getFile (downloadFlow [((publicDir, "x.aac"), 12),
          ((uploadsDir, "m.mp3"), 10)] "x.aac" "m.mp3" true).2
        (publicDir, "x.aac") = some 12 ∧
      getFile (downloadFlow [((publicDir, "x.aac"), 12),
          ((uploadsDir, "m.mp3"), 10)] "x.aac" "m.mp3" true).2
        (outputDir, "x.aac") = none :=
  trim_artifact_lifecycle
    [((publicDir, "x.aac"), 12), ((uploadsDir, "m.mp3"), 10)]
    "x.aac" "m.mp3" true 12 10
    (by simp [getFile])
    (by simp [getFile, uploadsDir, publicDir])
    (by norm_num)

end AudioMix
